import Mathlib

/-
Verification of the voice-loop subsystem of the AI_ASSISTANT repository.

The development shallowly embeds the relevant Python code:

* `Phase1` — the calibration and segmentation loop of
  `tests/phase1_online.py` (`auto_calibrate_noise`, `record_command`).
* `VoiceLoop` — the three-thread loop of `backend/core/voice_loop.py`
  (`VoiceLoop._record_utterance`, `VoiceLoop._process_thread_func`,
  `VoiceLoop._playback_thread_func`) and the shared interrupt flag.

Audio chunks are identified by their integer RMS energy (the only datum the
control flow inspects); wall-clock time is modelled in milliseconds, one
blocking read of CHUNK = 1024 samples at RATE = 16000 Hz advancing time by
exactly 64 ms (PyAudio blocking reads pace the loop to the audio clock).
-/

namespace Phase1

/-- Configuration produced by `auto_calibrate_noise` and consumed by
`record_command`.  Thresholds are rationals because the Python code computes
them as floats (`peak * 2.5` etc.); all values arising here are exact
multiples of integers by small rationals, so ℚ represents them exactly. -/
structure SegConfig where
  speech_threshold : ℚ
  silence_threshold : ℚ
  min_speech_chunks : Nat
deriving Repr, DecidableEq

/-- Constant `max_silence = 24` chunks (≈1.5 s) in `record_command`. -/
def maxSilence : Nat := 24

/-- Constant `smooth_window = 3` in `record_command`. -/
def smoothWindow : Nat := 3

/-- Mutable state of the `while True` loop of `record_command`:
`frames`, `silence_chunks`, `speech_chunks_count`, `recording`, `started`,
`energy_history`.  A frame is represented by its raw RMS energy. -/
structure SegState where
  frames : List Nat
  silence_chunks : Nat
  speech_chunks_count : Nat
  recording : Bool
  started : Bool
  energy_history : List Nat
deriving Repr, DecidableEq

/-- The state at entry of `record_command` (all counters zero, not started). -/
def SegState.init : SegState :=
  { frames := [], silence_chunks := 0, speech_chunks_count := 0,
    recording := false, started := false, energy_history := [] }

/-- Mirrors `energy_history.append(raw_energy)` followed by popping the front when the
window of `smoothWindow` chunks is exceeded — keep the last 3 raw energies. -/
def pushHistory (hist : List Nat) (raw : Nat) : List Nat :=
  let h := hist ++ [raw]
  if smoothWindow < h.length then h.tail else h

/-- Computes `energy = int(sum(energy_history) / len(energy_history))` — the moving
average (Python `int` truncation of a nonnegative float is Nat division). -/
def smoothedEnergy (hist : List Nat) : Nat := hist.sum / hist.length

/-- One iteration of the `while True` body of `record_command` on one audio
chunk of raw energy `raw`.  Returns the successor state and, when the loop
`break`s with an accepted utterance, the emitted utterance: its frames
together with the `speech_chunks_count` it accumulated. -/
def segStep (cfg : SegConfig) (s : SegState) (raw : Nat) :
    SegState × Option (List Nat × Nat) :=
  let hist := pushHistory s.energy_history raw
  let energy : ℚ := (smoothedEnergy hist : ℚ)
  if ¬ s.started ∧ cfg.speech_threshold < energy then
    -- start recording on strong speech: frames = [data], counters reset
    ({ frames := [raw], silence_chunks := 0, speech_chunks_count := 1,
       recording := true, started := true, energy_history := hist }, none)
  else if s.recording then
    let frames := s.frames ++ [raw]
    let cnt := if cfg.speech_threshold < energy then s.speech_chunks_count + 1
               else s.speech_chunks_count
    if energy < cfg.silence_threshold then
      let sil := s.silence_chunks + 1
      if maxSilence ≤ sil then
        if cfg.min_speech_chunks ≤ cnt then
          -- silence detected, enough strong speech: break and emit
          ({ s with
              frames := frames, silence_chunks := sil,
              speech_chunks_count := cnt, energy_history := hist },
           some (frames, cnt))
        else
          -- false trigger: discard frames, reset, wait again
          ({ frames := [], silence_chunks := 0, speech_chunks_count := 0,
             recording := false, started := false, energy_history := hist },
           none)
      else
        ({ s with
            frames := frames, silence_chunks := sil,
            speech_chunks_count := cnt, energy_history := hist }, none)
    else
      ({ s with
          frames := frames, silence_chunks := 0,
          speech_chunks_count := cnt, energy_history := hist }, none)
  else
    ({ s with energy_history := hist }, none)

/-- Run the segmentation loop over a whole energy sequence.  `record_command`
returns after one emission and is called again by `main` with a fresh state,
so after each emitted utterance the state restarts at `SegState.init`.
Returns the list of emitted utterances and the final state. -/
def segRun (cfg : SegConfig) (s : SegState) :
    List Nat → List (List Nat × Nat) × SegState
  | [] => ([], s)
  | raw :: rest =>
    match segStep cfg s raw with
    | (s₂, none) => segRun cfg s₂ rest
    | (_, some u) =>
      let r := segRun cfg SegState.init rest
      (u :: r.1, r.2)

/-- Computes `avg_energy = int(sum(energies) / len(energies))` of `auto_calibrate_noise`
(truncation of a nonnegative float is Nat division). -/
def avgEnergy (es : List Nat) : Nat := es.sum / es.length

/-- Computes `peak_noise = max_energy = max(energies)`; the 0 seed is never the result
on the nonempty lists the routine sees, and is harmless on `[]`. -/
def peakNoise (es : List Nat) : Nat := es.foldr max 0

/-- Embeds `auto_calibrate_noise` of `tests/phase1_online.py`, as a function of the
per-frame RMS energies observed during the calibration window.  The four
environment branches select the multiplier of the peak noise and the fixed
minimum threshold; `2.5 = 5/2`, `1.2 = 6/5`, `1.5 = 3/2`, `1.8 = 9/5`,
`1.3 = 13/10` are exact in ℚ. -/
def autoCalibrateNoise (es : List Nat) : SegConfig :=
  let avg := avgEnergy es
  let peak : ℚ := (peakNoise es : ℚ)
  if avg < 15 then
    { speech_threshold := max (peak * (5/2)) 80,
      silence_threshold := max (peak * (6/5)) 30,
      min_speech_chunks := 5 }
  else if avg < 50 then
    { speech_threshold := max (peak * (3/2)) 180,
      silence_threshold := max (peak * (6/5)) 90,
      min_speech_chunks := 3 }
  else if avg < 100 then
    { speech_threshold := max (peak * (9/5)) 300,
      silence_threshold := max (peak * (13/10)) 120,
      min_speech_chunks := 4 }
  else
    { speech_threshold := max (peak * (3/2)) 400,
      silence_threshold := max (peak * (13/10)) 150,
      min_speech_chunks := 6 }

end Phase1

namespace VoiceLoop

/-- One blocking read of CHUNK = 1024 samples at RATE = 16000 Hz lasts
1024/16000 s = 64 ms exactly. -/
def chunkMs : Nat := 64

/-- Constant `MAX_RECORDING_TIME = 10` seconds, in ms. -/
def maxRecordingMs : Nat := 10000

/-- Constant `SILENCE_DURATION = 1.5` seconds, in ms. -/
def silenceDurationMs : Nat := 1500

/-- Constant `MIN_RECORDING_TIME = 0.5` seconds, in ms. -/
def minRecordingMs : Nat := 500

/-- The accumulation loop of `VoiceLoop._record_utterance`.  `isSpeech i` is
the VAD verdict on the i-th chunk read inside the loop; `silenceStart` is the
index of the chunk at which the current run of silence began (`silence_start`
in the source, a wall-clock time there).  After reading chunk `i` the elapsed
time since `start_time` is `(i+1) * chunkMs`.  Returns the number of frames
accumulated when the loop exits. -/
def recordLoop (isSpeech : Nat → Bool) (i : Nat) (frames : Nat)
    (silenceStart : Option Nat) : Nat :=
  -- data = stream.read(CHUNK); frames.append(data)
  if maxRecordingMs < (i + 1) * chunkMs then
    -- elapsed > MAX_RECORDING_TIME: break
    frames + 1
  else if isSpeech i then
    -- speech: silence_start = None
    recordLoop isSpeech (i + 1) (frames + 1) none
  else
    match silenceStart with
    | none => recordLoop isSpeech (i + 1) (frames + 1) (some i)
    | some j =>
      if silenceDurationMs < (i - j) * chunkMs ∧ minRecordingMs < (i + 1) * chunkMs
      then frames + 1  -- silence long enough and past the minimum: break
      else recordLoop isSpeech (i + 1) (frames + 1) (some j)
termination_by maxRecordingMs / chunkMs + 1 - i
decreasing_by
  all_goals
    simp only [maxRecordingMs, chunkMs, not_lt] at *
    omega

/-- Outcome of one call of `VoiceLoop._record_utterance`. -/
structure RecordOutcome where
  interruptSet : Bool
  framesCount : Nat
  enqueued : Bool
deriving Repr, DecidableEq

/-- Embeds `VoiceLoop._record_utterance`: if `self.is_playing`, the shared
`interrupt_event` is set before the accumulation loop runs; afterwards a
`ProcessingTask` is enqueued whenever `frames` is nonempty. -/
def recordUtterance (isPlaying : Bool) (isSpeech : Nat → Bool) : RecordOutcome :=
  let n := recordLoop isSpeech 0 0 none
  { interruptSet := isPlaying, framesCount := n, enqueued := decide (0 < n) }

/-- Result of `brain.process_command`: a dict carrying `response`,
`expects_followup` and `followup_timeout`, or a plain string (then treated as
`expects_followup = False`, `followup_timeout = 0`). -/
inductive BrainRet
  | dict (response : String) (expects_followup : Bool) (followup_timeout : Nat)
  | plain (response : String)
deriving Repr, DecidableEq

/-- The dict `_process_thread_func` puts on `playback_queue`. -/
structure PlaybackItem where
  audio_path : String
  engine : String
  expects_followup : Bool
  followup_timeout : Nat
deriving Repr, DecidableEq

/-- The three collaborator calls available to one processing iteration; an
`Except.error` models a raised Python exception (or, for STT, also an
unreadable file).  The transcript/brain/TTS behaviours are functions of their
inputs. -/
structure Collab where
  stt : Except String String
  brain : String → Except String BrainRet
  tts : String → Except String (String × String)

/-- External calls observed during one processing iteration, in order. -/
inductive Ev
  | sttCall
  | brainCall
  | ttsCall
deriving Repr, DecidableEq

/-- Test `if not text or "[" in text:` — the transcript is empty or flagged as an
error (character-level membership, Python `in` on strings). -/
def transcriptBad (t : String) : Bool :=
  t.toList.isEmpty || t.toList.contains '['

/-- Extraction of `response`, `expects_followup`, `followup_timeout` from the
brain result (`isinstance(result, dict)` branch vs. the plain branch). -/
def brainResponse : BrainRet → String × Bool × Nat
  | .dict r e f => (r, e, f)
  | .plain r => (r, false, 0)

/-- One iteration of the `while` body of `VoiceLoop._process_thread_func` on
one dequeued task: STT, then (unless the transcript is empty or flagged) the
brain, then TTS, then publication on the playback queue.  The whole body runs
inside `try/except`; a raised exception ends the iteration with nothing
published and the loop continues.  Returns the calls made, in order, and the
published item if any. -/
def processIteration (c : Collab) : List Ev × Option PlaybackItem :=
  match c.stt with
  | .error _ => ([.sttCall], none)
  | .ok text =>
    if transcriptBad text then ([.sttCall], none)
    else
      match c.brain text with
      | .error _ => ([.sttCall, .brainCall], none)
      | .ok r =>
        let (response, ef, ft) := brainResponse r
        match c.tts response with
        | .error _ => ([.sttCall, .brainCall, .ttsCall], none)
        | .ok (path, engine) =>
          ([.sttCall, .brainCall, .ttsCall],
           some { audio_path := path, engine := engine,
                  expects_followup := ef, followup_timeout := ft })

/-- The processing thread drains its queue one task at a time (single
flight): the iterations happen strictly in sequence. -/
def processAll : List Collab → List (List Ev × Option PlaybackItem)
  | [] => []
  | c :: cs => processIteration c :: processAll cs

/-- Playback items published by the processing thread, each tagged with the
sequence number of its source utterance (`n` numbers the first task). -/
def publishedFrom (n : Nat) : List Collab → List (Nat × PlaybackItem)
  | [] => []
  | c :: cs =>
    match (processIteration c).2 with
    | some it => (n, it) :: publishedFrom (n + 1) cs
    | none => publishedFrom (n + 1) cs

/-- Operation `queue.Queue.put`: appends at the back.  Both `processing_queue` and
`playback_queue` are created as `queue.Queue()` — no `maxsize`. -/
def fifoPut {α : Type} (q : List α) (x : α) : List α := q ++ [x]

/-- Operation `queue.Queue.get`: takes the front (oldest) element. -/
def fifoGet? {α : Type} : List α → Option (α × List α)
  | [] => none
  | x :: r => some (x, r)

/-- A consumer thread repeatedly calling `get` on a FIFO queue receives the
elements in this order. -/
def drainFifo {α : Type} : List α → List α
  | [] => []
  | x :: q => x :: drainFifo q

/-- The `ProcessingTask` dataclass (audio + timestamp + `is_followup`);
frames are summarised by their count. -/
structure ProcessingTask where
  framesCount : Nat
  timestamp : Nat
  isFollowup : Bool
deriving Repr, DecidableEq

/-- States of `processing_queue` reachable from its construction by `put`
(in `_record_utterance`) and `get` (in `_process_thread_func`). -/
inductive QReach : List ProcessingTask → Prop
  | init : QReach []
  | put {q : List ProcessingTask} {t : ProcessingTask} :
      QReach q → QReach (fifoPut q t)
  | get {q r : List ProcessingTask} {t : ProcessingTask} :
      QReach q → fifoGet? q = some (t, r) → QReach r

/-- Python `str.endswith`, at the character level. -/
def strEndsWith (path suffix : String) : Bool :=
  List.isSuffixOf suffix.toList path.toList

/-- The polling loop of the mp3 branch of `_playback_thread_func`:
`while mixer.music.get_busy(): if interrupt_event.is_set(): stop; break;
time.sleep(0.1)`.  The audio lasts `remaining` polling intervals of 100 ms;
segment `t` of the audio plays during interval `t`; `raised t` means some
other thread sets the interrupt event while segment `t` plays; the flag is
sticky until cleared (threading.Event).  Returns how many 100 ms segments
were played and whether playback was stopped by the interrupt. -/
def playMp3 (raised : Nat → Bool) (flag : Bool) (t remaining : Nat) :
    Nat × Bool :=
  match remaining with
  | 0 => (t, false)          -- get_busy() false: playback completed
  | r + 1 =>
    if flag then (t, true)   -- interrupt observed: mixer.music.stop(); break
    else playMp3 raised (flag || raised t) (t + 1) r

/-- Playing the audio of one dequeued item in `_playback_thread_func`:
`pyttsx3_direct` and empty paths are skipped; `.mp3` goes through the
interruptible pygame loop; `.wav` goes to
`winsound.PlaySound(..., SND_FILENAME | SND_ASYNC)`, which returns at once
and lets the whole file play with no interrupt polling; any other path plays
nothing.  `flag` is the state of `interrupt_event` when playback starts. -/
def playItem (path : String) (nSeg : Nat) (raised : Nat → Bool)
    (flag : Bool) : Nat × Bool :=
  if path = "" ∨ path = "pyttsx3_direct" then (0, false)
  else if strEndsWith path ".mp3" then playMp3 raised flag 0 nSeg
  else if strEndsWith path ".wav" then (nSeg, false)
  else (0, false)

/-- Embeds `interrupt_event.clear()`. -/
def clearEvent (_ : Bool) : Bool := false

/-- The playback thread handling one dequeued item: `item =
playback_queue.get()`, `self.is_playing = True`, `interrupt_event.clear()`,
then the playback dispatch.  `prevFlag` is whatever the interrupt flag was
when the item was dequeued. -/
def dequeueAndPlay (prevFlag : Bool) (path : String) (nSeg : Nat)
    (raised : Nat → Bool) : Nat × Bool :=
  playItem path nSeg raised (clearEvent prevFlag)

/-- State of the follow-up branch at the end of `_playback_thread_func`. -/
structure FollowupState where
  waiting : Bool
  elapsed : Nat
  queued : List Nat
  closingRemarks : Nat
deriving Repr, DecidableEq

/-- One second of `time.sleep(followup_timeout)`: the listen thread may
segment a new utterance (`arrivals s` at absolute second `s`) and enqueue it
on the processing queue; nothing in any thread writes
`waiting_for_followup` during the sleep (the listen thread only reads it
for the task's `is_followup` field). -/
def followupTick (arrivals : Nat → Bool) (st : FollowupState) : FollowupState :=
  { waiting := st.waiting,
    elapsed := st.elapsed + 1,
    queued := st.queued ++ (if arrivals st.elapsed then [st.elapsed] else []),
    closingRemarks := st.closingRemarks }

/-- Embeds `time.sleep(n)` during the follow-up wait, one second at a time. -/
def followupSleep (arrivals : Nat → Bool) : Nat → FollowupState → FollowupState
  | 0, st => st
  | n + 1, st => followupSleep arrivals n (followupTick arrivals st)

/-- The follow-up branch of `_playback_thread_func`, entered after an
uninterrupted playback with `expects_followup` true:
`waiting_for_followup = True`, `time.sleep(followup_timeout)`, then
`if waiting_for_followup: speak(closing remark); waiting_for_followup =
False`. -/
def followupBranch (timeout : Nat) (arrivals : Nat → Bool) : FollowupState :=
  let st := followupSleep arrivals timeout
    { waiting := true, elapsed := 0, queued := [], closingRemarks := 0 }
  if st.waiting then
    { st with waiting := false, closingRemarks := st.closingRemarks + 1 }
  else st

/-- The shared state touched by more than one thread, plus two history
variables (`recStartedDuringSpeaking`, `dequeuedSinceRecStart`) recording how
the current recording began and whether the playback thread has dequeued a
new item since it began. -/
structure LoopState where
  is_playing : Bool
  interrupt : Bool
  recording : Bool
  recStartedDuringSpeaking : Bool
  dequeuedSinceRecStart : Bool
  playbackQueueLen : Nat
deriving Repr, DecidableEq

/-- Initial state: nothing playing, flag clear, not recording, empty queue. -/
def LoopState.init : LoopState :=
  { is_playing := false, interrupt := false, recording := false,
    recStartedDuringSpeaking := false, dequeuedSinceRecStart := false,
    playbackQueueLen := 0 }

/-- Entry of `_record_utterance`: `if self.is_playing:
interrupt_event.set()`, then the accumulation loop starts. -/
def startRecordingUpd (s : LoopState) : LoopState :=
  { s with recording := true,
           recStartedDuringSpeaking := s.is_playing,
           dequeuedSinceRecStart := false,
           interrupt := s.interrupt || s.is_playing }

/-- Exit of `_record_utterance`: the task is enqueued, recording over. -/
def endRecordingUpd (s : LoopState) : LoopState :=
  { s with recording := false, recStartedDuringSpeaking := false }

/-- Step `playback_queue.put(...)` by the processing thread. -/
def enqueueItemUpd (s : LoopState) : LoopState :=
  { s with playbackQueueLen := s.playbackQueueLen + 1 }

/-- Step `item = playback_queue.get(); self.is_playing = True;
interrupt_event.clear()` by the playback thread. -/
def dequeuePlayUpd (s : LoopState) : LoopState :=
  { s with playbackQueueLen := s.playbackQueueLen - 1,
           is_playing := true, interrupt := false,
           dequeuedSinceRecStart := s.dequeuedSinceRecStart || s.recording }

/-- Playback ends, by interruption or normally: `self.is_playing = False`
(the interrupt flag is not cleared here). -/
def stopPlayingUpd (s : LoopState) : LoopState :=
  { s with is_playing := false }

/-- Interleaved steps of the listening, processing and playback threads, as
far as they touch the shared state. -/
inductive LoopStep : LoopState → LoopState → Prop
  | startRecording {s : LoopState} (h : s.recording = false) :
      LoopStep s (startRecordingUpd s)
  | endRecording {s : LoopState} (h : s.recording = true) :
      LoopStep s (endRecordingUpd s)
  | enqueueItem {s : LoopState} :
      LoopStep s (enqueueItemUpd s)
  | dequeuePlay {s : LoopState} (h : 0 < s.playbackQueueLen)
      (h₂ : s.is_playing = false) :
      LoopStep s (dequeuePlayUpd s)
  | interruptStop {s : LoopState} (h : s.is_playing = true)
      (h₂ : s.interrupt = true) :
      LoopStep s (stopPlayingUpd s)
  | playbackDone {s : LoopState} (h : s.is_playing = true) :
      LoopStep s (stopPlayingUpd s)

/-- States reachable from startup. -/
def LoopReach (s : LoopState) : Prop :=
  Relation.ReflTransGen LoopStep LoopState.init s

end VoiceLoop

namespace Phase1

/-- Every utterance `segStep` ever emits carries at least
`min_speech_chunks` strong-speech chunks. -/
theorem segStep_emit_min (cfg : SegConfig) (s : SegState) (raw : Nat)
    (u : List Nat × Nat) (h : (segStep cfg s raw).2 = some u) :
    cfg.min_speech_chunks ≤ u.2 := by
  unfold segStep at h
  dsimp only at h
  repeat' split at h
  all_goals try simp_all
  all_goals (subst h; assumption)

/-- Lifting `segStep_emit_min` to runs from any starting state. -/
theorem segRun_emit_min (cfg : SegConfig) (es : List Nat) :
    ∀ (s : SegState) (u : List Nat × Nat), u ∈ (segRun cfg s es).1 →
      cfg.min_speech_chunks ≤ u.2 := by
  induction es with
  | nil => intro s u h; simp [segRun] at h
  | cons raw rest ih =>
    intro s u h
    rw [segRun] at h
    rcases h₂ : segStep cfg s raw with ⟨s₂, o⟩
    cases o with
    | none => rw [h₂] at h; exact ih s₂ u h
    | some v =>
      rw [h₂] at h
      simp only [List.mem_cons] at h
      rcases h with h | h
      · subst h; exact segStep_emit_min cfg s raw u (by rw [h₂])
      · exact ih SegState.init u h

/-- Auxiliary max-vs-max comparison used for the hysteresis property of the
calibration output. -/
theorem max_mul_lt_max_mul {p a b f₁ f₂ : ℚ} (hp : 0 ≤ p) (hab : a < b)
    (hf₁ : 0 < f₁) (hf : f₂ < f₁) : max (p * a) f₂ < max (p * b) f₁ := by
  rcases eq_or_lt_of_le hp with hp0 | hp0
  · rw [max_lt_iff]
    refine ⟨?_, lt_of_lt_of_le hf (le_max_right _ _)⟩
    calc p * a = 0 := by rw [← hp0]; ring
    _ < f₁ := hf₁
    _ ≤ max (p * b) f₁ := le_max_right _ _
  · rw [max_lt_iff]
    refine ⟨?_, lt_of_lt_of_le hf (le_max_right _ _)⟩
    calc p * a < p * b := by exact mul_lt_mul_of_pos_left hab hp0
    _ ≤ max (p * b) f₁ := le_max_left _ _

end Phase1

namespace VoiceLoop

/-- Fueled bounds on the accumulation loop: it always reads at least one
chunk, and never more than chunk number 156 (the read after which the
elapsed time 157·64 ms = 10.048 s first exceeds `MAX_RECORDING_TIME`). -/
theorem recordLoop_bounds_aux (isSpeech : Nat → Bool) :
    ∀ (n i frames : Nat) (ss : Option Nat), 156 - i ≤ n →
      frames + 1 ≤ recordLoop isSpeech i frames ss ∧
      recordLoop isSpeech i frames ss ≤ frames + 1 + (156 - i) := by
  intro n
  induction n with
  | zero =>
    intro i frames ss h
    have hmax : maxRecordingMs < (i + 1) * chunkMs := by
      simp only [maxRecordingMs, chunkMs]; omega
    rw [recordLoop.eq_def]
    simp only [hmax, if_true]
    omega
  | succ n ih =>
    intro i frames ss h
    rw [recordLoop.eq_def]
    by_cases hmax : maxRecordingMs < (i + 1) * chunkMs
    · simp only [hmax, if_true]; omega
    · have hi : i < 156 := by
        simp only [maxRecordingMs, chunkMs, not_lt] at hmax; omega
      simp only [hmax, if_false]
      cases hs : isSpeech i with
      | true =>
        simp only [if_true]
        have := ih (i + 1) (frames + 1) none (by omega)
        omega
      | false =>
        simp only [Bool.false_eq_true, if_false]
        cases ss with
        | none =>
          dsimp only
          have := ih (i + 1) (frames + 1) (some i) (by omega)
          omega
        | some j =>
          dsimp only
          by_cases hb : silenceDurationMs < (i - j) * chunkMs ∧
              minRecordingMs < (i + 1) * chunkMs
          · rw [if_pos hb]; omega
          · rw [if_neg hb]
            have := ih (i + 1) (frames + 1) (some j) (by omega)
            omega

/-- If no interrupt is raised while the mp3 plays, the polling loop plays
every segment and exits uninterrupted. -/
theorem playMp3_no_raise (raised : Nat → Bool) :
    ∀ (r t : Nat), (∀ s, t ≤ s → s < t + r → raised s = false) →
      playMp3 raised false t r = (t + r, false) := by
  intro r
  induction r with
  | zero => intro t _; rfl
  | succ r ih =>
    intro t h
    rw [playMp3]
    simp only [Bool.false_eq_true, if_false, Bool.false_or]
    rw [h t le_rfl (by omega)]
    have := ih (t + 1) (fun s hs hs₂ => h s (by omega) (by omega))
    rw [this]
    congr 1
    omega

/-- Once the flag is observed set, the very next poll stops playback. -/
theorem playMp3_flag_true (raised : Nat → Bool) (t r : Nat) (h : 0 < r) :
    playMp3 raised true t r = (t, true) := by
  cases r with
  | zero => omega
  | succ r => rw [playMp3]; simp

/-- An interrupt raised while segment `s` plays is observed at the next poll:
at most one further segment is played, and if any audio remains at that point
the loop stops with the interrupted flag. -/
theorem playMp3_stops (raised : Nat → Bool) :
    ∀ (r t s : Nat) (flag : Bool), raised s = true → t ≤ s → s < t + r →
      (playMp3 raised flag t r).1 ≤ s + 1 ∧
      (s + 1 < t + r → (playMp3 raised flag t r).2 = true) := by
  intro r
  induction r with
  | zero => intro t s flag _ h₁ h₂; omega
  | succ r ih =>
    intro t s flag hr h₁ h₂
    rw [playMp3]
    cases flag with
    | true =>
      constructor
      · simp only [if_true]; omega
      · intro _; simp only [if_true]
    | false =>
      simp only [Bool.false_eq_true, if_false, Bool.false_or]
      rcases Nat.eq_or_lt_of_le h₁ with rfl | hlt
      · rw [hr]
        cases r with
        | zero =>
          rw [playMp3]
          exact ⟨le_rfl, fun hh => absurd hh (by omega)⟩
        | succ r₂ =>
          rw [playMp3_flag_true raised _ _ (Nat.succ_pos r₂)]
          exact ⟨le_rfl, fun _ => rfl⟩
      · have := ih (t + 1) s (raised t) hr (by omega) (by omega)
        exact ⟨this.1, fun hh => this.2 (by omega)⟩

/-- Playback stops interrupted only if some raise happened during its own
polling window. -/
theorem playMp3_interrupted_raise (raised : Nat → Bool) :
    ∀ (r t : Nat) (flag : Bool), (playMp3 raised flag t r).2 = true →
      flag = true ∨ ∃ s, t ≤ s ∧ s < t + r ∧ raised s = true := by
  intro r
  induction r with
  | zero => intro t flag h; simp [playMp3] at h
  | succ r ih =>
    intro t flag h
    rw [playMp3] at h
    cases flag with
    | true => exact Or.inl rfl
    | false =>
      simp only [Bool.false_eq_true, if_false, Bool.false_or] at h
      rcases ih (t + 1) (raised t) h with h₂ | ⟨s, hs₁, hs₂, hs₃⟩
      · exact Or.inr ⟨t, le_rfl, by omega, h₂⟩
      · exact Or.inr ⟨s, by omega, by omega, hs₃⟩

/-- The sleep does not change `waiting_for_followup`. -/
theorem followupSleep_waiting (arr : Nat → Bool) :
    ∀ (n : Nat) (st : FollowupState),
      (followupSleep arr n st).waiting = st.waiting := by
  intro n
  induction n with
  | zero => intro st; rfl
  | succ n ih => intro st; rw [followupSleep]; rw [ih]; rfl

/-- The sleep lasts its full duration. -/
theorem followupSleep_elapsed (arr : Nat → Bool) :
    ∀ (n : Nat) (st : FollowupState),
      (followupSleep arr n st).elapsed = st.elapsed + n := by
  intro n
  induction n with
  | zero => intro st; rfl
  | succ n ih =>
    intro st
    rw [followupSleep, ih]
    simp [followupTick]
    omega

/-- The sleep plays no closing remark by itself. -/
theorem followupSleep_closing (arr : Nat → Bool) :
    ∀ (n : Nat) (st : FollowupState),
      (followupSleep arr n st).closingRemarks = st.closingRemarks := by
  intro n
  induction n with
  | zero => intro st; rfl
  | succ n ih => intro st; rw [followupSleep]; rw [ih]; rfl

/-- Everything already on the queue stays there through the sleep. -/
theorem followupSleep_queued_mono (arr : Nat → Bool) :
    ∀ (n : Nat) (st : FollowupState) (x : Nat),
      x ∈ st.queued → x ∈ (followupSleep arr n st).queued := by
  intro n
  induction n with
  | zero => intro st x hx; exact hx
  | succ n ih =>
    intro st x hx
    rw [followupSleep]
    exact ih _ x (by simp [followupTick, hx])

/-- An utterance arriving at second `s` of the sleep window lands on the
processing queue. -/
theorem followupSleep_queued_mem (arr : Nat → Bool) :
    ∀ (n : Nat) (st : FollowupState) (s : Nat),
      st.elapsed ≤ s → s < st.elapsed + n → arr s = true →
      s ∈ (followupSleep arr n st).queued := by
  intro n
  induction n with
  | zero => intro st s h₁ h₂ _; omega
  | succ n ih =>
    intro st s h₁ h₂ ha
    rw [followupSleep]
    rcases Nat.eq_or_lt_of_le h₁ with rfl | hlt
    · exact followupSleep_queued_mono arr n _ _ (by simp [followupTick, ha])
    · exact ih (followupTick arr st) s (by simp [followupTick]; omega)
        (by simp [followupTick]; omega) ha

/-- Since `put` appends: folding a task list into an empty FIFO queue yields the
list itself. -/
theorem foldl_fifoPut {α : Type} (xs : List α) :
    ∀ q : List α, List.foldl fifoPut q xs = q ++ xs := by
  induction xs with
  | nil => intro q; simp
  | cons x xs ih => intro q; simp [fifoPut, ih]

/-- Draining a FIFO queue returns its elements front to back. -/
theorem drainFifo_eq {α : Type} (q : List α) : drainFifo q = q := by
  induction q with
  | nil => rfl
  | cons x q ih => rw [drainFifo, ih]

/-- A queue holding `n` copies of a task is reachable for `processing_queue`
(enqueue `n` utterances while the processing thread is busy). -/
theorem qreach_replicate (t : ProcessingTask) :
    ∀ n : Nat, QReach (List.replicate n t) := by
  intro n
  induction n with
  | zero => exact QReach.init
  | succ n ih =>
    have : List.replicate (n + 1) t = fifoPut (List.replicate n t) t := by
      simp [fifoPut, List.replicate_succ']
    rw [this]
    exact QReach.put ih

/-- One step preserves the guarded barge-in invariant: while a recording that
began during `Speaking` is still running and the playback thread has not
dequeued a fresh item since it began, the interrupt flag stays set. -/
theorem loopStep_preserves {s s₂ : LoopState} (h : LoopStep s s₂)
    (inv : s.recording = true → s.recStartedDuringSpeaking = true →
           s.dequeuedSinceRecStart = false → s.interrupt = true) :
    s₂.recording = true → s₂.recStartedDuringSpeaking = true →
    s₂.dequeuedSinceRecStart = false → s₂.interrupt = true := by
  cases h with
  | startRecording h =>
    intro _ h₂ _
    simp only [startRecordingUpd] at h₂ ⊢
    simp [h₂]
  | endRecording h =>
    intro h₁ _ _
    simp only [endRecordingUpd] at h₁
    simp at h₁
  | enqueueItem =>
    intro h₁ h₂ h₃
    simp only [enqueueItemUpd] at h₁ h₂ h₃ ⊢
    exact inv h₁ h₂ h₃
  | dequeuePlay h h₂ =>
    intro h₃ _ h₅
    simp only [dequeuePlayUpd] at h₃ h₅
    simp [h₃] at h₅
  | interruptStop h h₂ =>
    intro _ _ _
    simpa [stopPlayingUpd] using h₂
  | playbackDone h =>
    intro h₁ h₂ h₃
    simp only [stopPlayingUpd] at h₁ h₂ h₃ ⊢
    exact inv h₁ h₂ h₃

/-- The guarded barge-in invariant holds in every reachable state. -/
theorem loopReach_invariant {s : LoopState} (h : LoopReach s) :
    s.recording = true → s.recStartedDuringSpeaking = true →
    s.dequeuedSinceRecStart = false → s.interrupt = true := by
  induction h with
  | refl => intro h₁ _ _; simp [LoopState.init] at h₁
  | tail _ hstep ih => exact loopStep_preserves hstep ih

/-- The calls of one processing iteration, in order: STT first, the brain
only after a usable transcript, TTS only after a brain response. -/
theorem processIteration_events (c : Collab) :
    (processIteration c).1 = [Ev.sttCall] ∨
    (processIteration c).1 = [Ev.sttCall, Ev.brainCall] ∨
    (processIteration c).1 = [Ev.sttCall, Ev.brainCall, Ev.ttsCall] := by
  unfold processIteration
  cases hstt : c.stt with
  | error e => simp
  | ok text =>
    by_cases hbad : transcriptBad text = true
    · simp [hbad]
    · simp only [hbad, Bool.false_eq_true, if_false]
      cases hb : c.brain text with
      | error e => simp
      | ok r =>
        cases ht : c.tts (brainResponse r).1 with
        | error e => simp [ht]
        | ok pe =>
          rcases pe with ⟨path, engine⟩
          simp [ht]

/-- The processing thread handles tasks one after another; the handling of
any one task, failing or not, leaves every other task's processing
unchanged. -/
theorem processAll_append (cs₁ cs₂ : List Collab) (c : Collab) :
    processAll (cs₁ ++ c :: cs₂) =
      processAll cs₁ ++ processIteration c :: processAll cs₂ := by
  induction cs₁ with
  | nil => rfl
  | cons d cs₁ ih => rw [List.cons_append, processAll, ih]; rfl

/-- Function `processAll` yields exactly one outcome per task (no task retried, none
skipped). -/
theorem processAll_length (cs : List Collab) :
    (processAll cs).length = cs.length := by
  induction cs with
  | nil => rfl
  | cons c cs ih => rw [processAll]; simp [ih]

/-- Sequence numbers of published items are bounded below by the number of
the first task. -/
theorem publishedFrom_fst_le (cs : List Collab) :
    ∀ (n : Nat) (m : Nat), m ∈ (publishedFrom n cs).map Prod.fst → n ≤ m := by
  induction cs with
  | nil => intro n m h; simp [publishedFrom] at h
  | cons c cs ih =>
    intro n m h
    rw [publishedFrom] at h
    cases hp : (processIteration c).2 with
    | none =>
      rw [hp] at h
      exact Nat.le_of_succ_le (ih (n + 1) m h)
    | some it =>
      rw [hp] at h
      simp only [List.map_cons, List.mem_cons] at h
      rcases h with rfl | h
      · exact le_rfl
      · exact Nat.le_of_succ_le (ih (n + 1) m h)

/-- Published items keep the segmentation order of their source utterances:
their sequence numbers are strictly increasing. -/
theorem publishedFrom_pairwise (cs : List Collab) :
    ∀ n : Nat, List.Pairwise (· < ·) ((publishedFrom n cs).map Prod.fst) := by
  induction cs with
  | nil => intro n; simp [publishedFrom]
  | cons c cs ih =>
    intro n
    rw [publishedFrom]
    cases hp : (processIteration c).2 with
    | none => exact ih (n + 1)
    | some it =>
      simp only [List.map_cons]
      refine List.Pairwise.cons ?_ (ih (n + 1))
      intro m hm
      exact Nat.lt_of_succ_le (publishedFrom_fst_le cs (n + 1) m hm)

end VoiceLoop

namespace Phase1

/-- C4: for every frame sequence in which speech-level energy is sustained
for fewer than `min_speech_chunks` chunks before the consecutive-silence
limit is reached, the segmentation loop of `record_command` emits zero
utterances — every utterance it ever emits carries at least
`min_speech_chunks` strong chunks — and when the silence limit is hit
without enough strong speech, the partially accumulated frames are discarded
and the state returns to waiting-for-speech. -/
theorem noise_burst_rejected (cfg : SegConfig) (es : List Nat) (s : SegState)
    (raw : Nat) :
    (∀ u ∈ (segRun cfg SegState.init es).1, cfg.min_speech_chunks ≤ u.2) ∧
    (s.started = true → s.recording = true →
     ((smoothedEnergy (pushHistory s.energy_history raw) : ℚ) <
        cfg.silence_threshold) →
     maxSilence ≤ s.silence_chunks + 1 →
     (segStep cfg s raw).2 = none →
     (segStep cfg s raw).1 =
       { frames := [], silence_chunks := 0, speech_chunks_count := 0,
         recording := false, started := false,
         energy_history := pushHistory s.energy_history raw }) := by
  refine ⟨fun u hu => segRun_emit_min cfg es SegState.init u hu, ?_⟩
  intro hst hrec hsil hmax hnone
  unfold segStep at hnone ⊢
  simp only [hst, hrec, hsil, hmax, not_true_eq_false, false_and, if_false,
    if_true] at hnone ⊢
  by_cases hmin : cfg.min_speech_chunks ≤
      (if cfg.speech_threshold <
          ((smoothedEnergy (pushHistory s.energy_history raw) : ℚ))
        then s.speech_chunks_count + 1 else s.speech_chunks_count)
  · rw [if_pos hmin] at hnone
    exact absurd hnone (by simp)
  · rw [if_neg hmin]

/-- C4 witness: a two-chunk burst over threshold followed by silence, with
`min_speech_chunks = 3`, is rejected: every emission of that run carries at
least 3 strong chunks (and by computation the run emits nothing at all). -/
theorem noise_burst_rejected_witness :
    (∀ u ∈ (segRun ⟨230, 150, 3⟩ SegState.init
        ([300, 300] ++ List.replicate 30 10)).1, 3 ≤ u.2) ∧
    (segRun ⟨230, 150, 3⟩ SegState.init
        ([300, 300] ++ List.replicate 30 10)).1 = [] := by
  refine ⟨(noise_burst_rejected ⟨230, 150, 3⟩
    ([300, 300] ++ List.replicate 30 10) SegState.init 0).1, by decide⟩

/-- C5 counterexample: with a single calibration frame of energy 10 (a very
quiet room), `auto_calibrate_noise` returns `speech_threshold = 80`, which is
8× the observed peak noise — not a multiple in the 1.5–2.5× range. -/
theorem calibration_floor_breaks_multiplier :
    (autoCalibrateNoise [10]).speech_threshold = 80 ∧
    ¬ ((autoCalibrateNoise [10]).speech_threshold ≤
        (5 / 2 : ℚ) * (peakNoise [10] : ℚ)) := by
  constructor <;> norm_num [autoCalibrateNoise, avgEnergy, peakNoise]

/-- C5 (amended): `speech_threshold` is the larger of an environment
multiplier (1.5–2.5×) of the peak noise and a fixed environment floor
(80/180/300/400); it is therefore at least 1.5× the peak, and either within
the 1.5–2.5× range or equal to the floor; and the hysteresis always holds:
`silence_threshold < speech_threshold`. -/
theorem calibration_hysteresis (es : List Nat) :
    (autoCalibrateNoise es).silence_threshold <
      (autoCalibrateNoise es).speech_threshold ∧
    (3 / 2 : ℚ) * (peakNoise es : ℚ) ≤
      (autoCalibrateNoise es).speech_threshold ∧
    ((autoCalibrateNoise es).speech_threshold ≤
        (5 / 2 : ℚ) * (peakNoise es : ℚ) ∨
      (autoCalibrateNoise es).speech_threshold = 80 ∨
      (autoCalibrateNoise es).speech_threshold = 180 ∨
      (autoCalibrateNoise es).speech_threshold = 300 ∨
      (autoCalibrateNoise es).speech_threshold = 400) := by
  have hp : (0 : ℚ) ≤ (peakNoise es : ℚ) := Nat.cast_nonneg _
  unfold autoCalibrateNoise
  dsimp only
  split_ifs with h₁ h₂ h₃
  · refine ⟨max_mul_lt_max_mul hp (by norm_num) (by norm_num) (by norm_num),
      le_trans (by linarith) (le_max_left _ _), ?_⟩
    rcases le_total ((peakNoise es : ℚ) * (5 / 2)) 80 with hle | hle
    · rw [max_eq_right hle]; right; left; rfl
    · rw [max_eq_left hle]; left; linarith
  · refine ⟨max_mul_lt_max_mul hp (by norm_num) (by norm_num) (by norm_num),
      le_trans (by linarith) (le_max_left _ _), ?_⟩
    rcases le_total ((peakNoise es : ℚ) * (3 / 2)) 180 with hle | hle
    · rw [max_eq_right hle]; right; right; left; rfl
    · rw [max_eq_left hle]; left; linarith
  · refine ⟨max_mul_lt_max_mul hp (by norm_num) (by norm_num) (by norm_num),
      le_trans (by linarith) (le_max_left _ _), ?_⟩
    rcases le_total ((peakNoise es : ℚ) * (9 / 5)) 300 with hle | hle
    · rw [max_eq_right hle]; right; right; right; left; rfl
    · rw [max_eq_left hle]; left; linarith
  · refine ⟨max_mul_lt_max_mul hp (by norm_num) (by norm_num) (by norm_num),
      le_trans (by linarith) (le_max_left _ _), ?_⟩
    rcases le_total ((peakNoise es : ℚ) * (3 / 2)) 400 with hle | hle
    · rw [max_eq_right hle]; right; right; right; right; rfl
    · rw [max_eq_left hle]; left; linarith

end Phase1

namespace VoiceLoop

/-- C8: whatever the VAD reports, the accumulation loop of
`_record_utterance` reads at most 157 chunks (157·64 ms = 10.048 s ≈
`MAX_RECORDING_TIME`) before terminating, and the recorded utterance is
always enqueued for processing. -/
theorem recording_loop_bounded (isPlaying : Bool) (isSpeech : Nat → Bool) :
    (recordUtterance isPlaying isSpeech).framesCount ≤ 157 ∧
    (recordUtterance isPlaying isSpeech).enqueued = true := by
  have h := recordLoop_bounds_aux isSpeech 156 0 0 none (by omega)
  unfold recordUtterance
  refine ⟨by dsimp only; omega, ?_⟩
  dsimp only
  simp only [decide_eq_true_eq]
  omega

/-- C6: an empty or error-flagged transcript aborts the utterance with no
brain or TTS call and nothing published; a raised STT exception does the
same; and whatever one task's collaborators do, every other task is handled
exactly as it would be on its own — the coordinator keeps running, one
outcome per task, no task retried. -/
theorem processing_skips_bad_transcript_and_survives (c : Collab)
    (t er : String) (cs₁ cs₂ : List Collab) :
    (c.stt = Except.ok t → transcriptBad t = true →
        processIteration c = ([Ev.sttCall], none)) ∧
    (c.stt = Except.error er → processIteration c = ([Ev.sttCall], none)) ∧
    processAll (cs₁ ++ c :: cs₂) =
      processAll cs₁ ++ processIteration c :: processAll cs₂ ∧
    (processAll (cs₁ ++ c :: cs₂)).length = cs₁.length + 1 + cs₂.length := by
  refine ⟨?_, ?_, processAll_append cs₁ cs₂ c, ?_⟩
  · intro hstt hbad
    unfold processIteration
    rw [hstt]
    simp [hbad]
  · intro hstt
    unfold processIteration
    rw [hstt]
  · rw [processAll_length]
    simp only [List.length_append, List.length_cons]
    omega

/-- C6 witness: a transcript carrying the error marker at a concrete
collaborator environment. -/
theorem processing_skips_bad_transcript_witness :
    processIteration
      { stt := Except.ok "[STT error]",
        brain := fun _ => Except.ok (BrainRet.plain "hi"),
        tts := fun _ => Except.ok ("out.mp3", "edge") } =
      ([Ev.sttCall], none) :=
  (processing_skips_bad_transcript_and_survives
    { stt := Except.ok "[STT error]",
      brain := fun _ => Except.ok (BrainRet.plain "hi"),
      tts := fun _ => Except.ok ("out.mp3", "edge") }
    "[STT error]" "" [] []).1 rfl (by decide)

/-- C7: playback items, tagged with their source sequence numbers, traverse
the FIFO handoff in exactly segmentation order (their sequence numbers are
strictly increasing in delivery order), and within one utterance the
collaborator calls are strictly STT, then brain, then TTS — each present
only after its predecessor returned. -/
theorem playback_fifo_and_strict_sequencing (cs : List Collab) (n : Nat)
    (c : Collab) :
    drainFifo (List.foldl fifoPut [] (publishedFrom n cs)) =
      publishedFrom n cs ∧
    List.Pairwise (· < ·) ((publishedFrom n cs).map Prod.fst) ∧
    ((processIteration c).1 = [Ev.sttCall] ∨
     (processIteration c).1 = [Ev.sttCall, Ev.brainCall] ∨
     (processIteration c).1 = [Ev.sttCall, Ev.brainCall, Ev.ttsCall]) := by
  refine ⟨?_, publishedFrom_pairwise cs n, processIteration_events c⟩
  rw [foldl_fifoPut, List.nil_append, drainFifo_eq]

/-- C9 counterexample: `processing_queue` is a plain `queue.Queue()` with no
`maxsize`; no depth bounds its reachable lengths. -/
theorem processing_queue_unbounded :
    ¬ ∃ d : Nat, ∀ q : List ProcessingTask, QReach q → q.length ≤ d := by
  rintro ⟨d, hd⟩
  have h := hd (List.replicate (d + 1) ⟨1, 0, false⟩)
    (qreach_replicate ⟨1, 0, false⟩ (d + 1))
  rw [List.length_replicate] at h
  omega

/-- C9 (amended): the queue between the Segmenter and the Processing
Coordinator is an unbounded FIFO: `put` appends the new utterance at the
back, keeping every older utterance in place and in order (none dropped,
oldest first), and queues exceeding any depth are reachable. -/
theorem processing_queue_fifo_no_drop (q : List ProcessingTask)
    (t : ProcessingTask) (d : Nat) :
    (fifoPut q t).length = q.length + 1 ∧
    (fifoPut q t).take q.length = q ∧
    (fifoPut q t).getLast? = some t ∧
    (∃ q₂, QReach q₂ ∧ d < q₂.length) := by
  refine ⟨by simp [fifoPut], ?_, ?_,
    ⟨List.replicate (d + 1) t, qreach_replicate t (d + 1), by simp⟩⟩
  · unfold fifoPut
    exact List.take_left q [t]
  · simp [fifoPut]

/-- C1 counterexample: a `.wav` playback item is handed to
`winsound.PlaySound(..., SND_FILENAME | SND_ASYNC)` with no interrupt
polling: with the interrupt raised during the first 100 ms segment, all 5
segments still play and the item is never stopped. -/
theorem playback_wav_ignores_interrupt :
    playItem "reply.wav" 5 (fun t => t == 0) false = (5, false) := by
  decide

/-- C1 (amended): only the `.mp3` branch of the playback dispatch polls the
interrupt event, every 100 ms: if the interrupt is raised while segment `t`
of an mp3 item plays, at most one further 100 ms segment is played, and
whenever audio remains past that poll the loop stops and the item is
discarded.  (`.wav` items play asynchronously with no polling — see the
counterexample.) -/
theorem playback_mp3_interrupt_poll (path : String) (nSeg t : Nat)
    (raised : Nat → Bool) (h0 : ¬ (path = "" ∨ path = "pyttsx3_direct"))
    (h1 : strEndsWith path ".mp3" = true) (hr : raised t = true)
    (ht : t < nSeg) :
    (playItem path nSeg raised false).1 ≤ t + 1 ∧
    (t + 1 < nSeg → (playItem path nSeg raised false).2 = true) := by
  have h := playMp3_stops raised nSeg 0 t false hr (Nat.zero_le t) (by omega)
  unfold playItem
  rw [if_neg h0, if_pos h1]
  exact ⟨h.1, fun hh => h.2 (by omega)⟩

/-- C1 witness: an interrupt raised during segment 1 of a 5-segment mp3 stops
playback by segment 2. -/
theorem playback_mp3_interrupt_poll_witness :
    (playItem "reply.mp3" 5 (fun t => t == 1) false).1 ≤ 1 + 1 ∧
    (1 + 1 < 5 → (playItem "reply.mp3" 5 (fun t => t == 1) false).2 = true) :=
  playback_mp3_interrupt_poll "reply.mp3" 5 1 (fun t => t == 1)
    (by decide) (by decide) (by decide) (by decide)

/-- C10: the playback thread clears the interrupt event immediately after
dequeuing an item and before starting playback: the outcome is independent
of anything raised before the dequeue; with no raise during the item's own
playback the item is never cancelled, however often the flag was set
earlier; and a cancellation implies a raise strictly inside the item's own
playback window. -/
theorem interrupt_cleared_at_dequeue (prevFlag : Bool) (path : String)
    (nSeg : Nat) (raised : Nat → Bool) :
    dequeueAndPlay prevFlag path nSeg raised =
      dequeueAndPlay false path nSeg raised ∧
    ((∀ s, s < nSeg → raised s = false) →
      (dequeueAndPlay prevFlag path nSeg raised).2 = false) ∧
    ((dequeueAndPlay prevFlag path nSeg raised).2 = true →
      ∃ s, s < nSeg ∧ raised s = true) := by
  refine ⟨rfl, ?_, ?_⟩
  · intro hnone
    unfold dequeueAndPlay clearEvent playItem
    split_ifs with hdirect hmp3 hwav
    · rfl
    · rw [playMp3_no_raise raised nSeg 0 (fun s hs hs₂ => hnone s (by omega))]
    · rfl
    · rfl
  · intro hint
    unfold dequeueAndPlay clearEvent playItem at hint
    split_ifs at hint with hdirect hmp3
    rcases playMp3_interrupted_raise raised nSeg 0 false hint with
      h | ⟨s, hs₁, hs₂, hs₃⟩
    · simp at h
    · exact ⟨s, by omega, hs₃⟩

/-- C10 witness: an interrupt pending at dequeue time (set during
processing) does not cancel the next mp3 item when nothing is raised during
its playback. -/
theorem interrupt_cleared_at_dequeue_witness :
    (dequeueAndPlay true "reply.mp3" 3 (fun _ => false)).2 = false :=
  (interrupt_cleared_at_dequeue true "reply.mp3" 3 (fun _ => false)).2.1
    (fun _ _ => rfl)

/-- C3 counterexample: with `followup_timeout = 8` and a new utterance
arriving at second 3, the follow-up branch still sleeps all 8 seconds and
then plays the closing remark (the arrival is merely queued): the wait does
not end at 3 s and the closing-remark count is 1, not 0. -/
theorem followup_sleep_ignores_arrival :
    (followupBranch 8 (fun s => s == 3)).elapsed = 8 ∧
    (followupBranch 8 (fun s => s == 3)).closingRemarks = 1 ∧
    (followupBranch 8 (fun s => s == 3)).queued = [3] ∧
    ¬ ((followupBranch 8 (fun s => s == 3)).elapsed = 3 ∧
       (followupBranch 8 (fun s => s == 3)).closingRemarks = 0) := by
  decide

/-- C3 (amended): after an uninterrupted playback with `expects_followup`
true, the follow-up branch always sleeps the full timeout and then plays
exactly one closing remark, whatever arrives meanwhile; utterances arriving
during the wait are queued for processing afterwards rather than ending the
wait early. -/
theorem followup_wait_full_timeout (timeout : Nat) (arrivals : Nat → Bool) :
    (followupBranch timeout arrivals).elapsed = timeout ∧
    (followupBranch timeout arrivals).closingRemarks = 1 ∧
    (followupBranch timeout arrivals).waiting = false ∧
    (∀ s, s < timeout → arrivals s = true →
      s ∈ (followupBranch timeout arrivals).queued) := by
  have hw : (followupSleep arrivals timeout
      { waiting := true, elapsed := 0, queued := [],
        closingRemarks := 0 }).waiting = true := by
    rw [followupSleep_waiting]
  unfold followupBranch
  rw [if_pos hw]
  refine ⟨?_, ?_, rfl, ?_⟩
  · dsimp only
    rw [followupSleep_elapsed]
    simp
  · dsimp only
    rw [followupSleep_closing]
  · intro s hs ha
    dsimp only
    exact followupSleep_queued_mem arrivals timeout _ s (Nat.zero_le s)
      (by simpa using hs) ha

/-- C3 amended-claim witness at timeout 8 with an arrival at second 5. -/
theorem followup_wait_full_timeout_witness :
    (followupBranch 8 (fun s => s == 5)).elapsed = 8 ∧
    (followupBranch 8 (fun s => s == 5)).closingRemarks = 1 ∧
    (followupBranch 8 (fun s => s == 5)).waiting = false ∧
    5 ∈ (followupBranch 8 (fun s => s == 5)).queued := by
  have h := followup_wait_full_timeout 8 (fun s => s == 5)
  exact ⟨h.1, h.2.1, h.2.2.1, h.2.2.2 5 (by omega) (by decide)⟩

/-- C2 counterexample: after a barge-in interrupts item N and the playback
thread dequeues the already-queued item N+1, the dequeue clears the
interrupt flag while the barge-in recording is still running: the state
below — recording in progress that began during `Speaking`, interrupt flag
clear — is reachable. -/
theorem barge_in_invariant_fails_after_dequeue :
    LoopReach
      { is_playing := true, interrupt := false, recording := true,
        recStartedDuringSpeaking := true, dequeuedSinceRecStart := true,
        playbackQueueLen := 0 } ∧
    ({ is_playing := true, interrupt := false, recording := true,
       recStartedDuringSpeaking := true, dequeuedSinceRecStart := true,
       playbackQueueLen := 0 } : LoopState).recording = true ∧
    ({ is_playing := true, interrupt := false, recording := true,
       recStartedDuringSpeaking := true, dequeuedSinceRecStart := true,
       playbackQueueLen := 0 } : LoopState).recStartedDuringSpeaking = true ∧
    ({ is_playing := true, interrupt := false, recording := true,
       recStartedDuringSpeaking := true, dequeuedSinceRecStart := true,
       playbackQueueLen := 0 } : LoopState).interrupt = false := by
  have h1 : LoopReach (enqueueItemUpd LoopState.init) :=
    Relation.ReflTransGen.single LoopStep.enqueueItem
  have h2 := Relation.ReflTransGen.tail h1 LoopStep.enqueueItem
  have h3 := Relation.ReflTransGen.tail h2
    (LoopStep.dequeuePlay (by decide) (by decide))
  have h4 := Relation.ReflTransGen.tail h3
    (LoopStep.startRecording (by decide))
  have h5 := Relation.ReflTransGen.tail h4
    (LoopStep.interruptStop (by decide) (by decide))
  have h6 := Relation.ReflTransGen.tail h5
    (LoopStep.dequeuePlay (by decide) (by decide))
  exact ⟨h6, rfl, rfl, rfl⟩

/-- C2 (amended): when the Capture thread begins recording while playback is
in progress it sets the shared interrupt flag at that very step, before any
frame is accumulated; and in every reachable state in which such a recording
is still running and the playback thread has not dequeued a fresh item since
it began, the interrupt flag is still set.  (The next dequeue clears the
flag — see the counterexample — so the unguarded invariant fails.) -/
theorem barge_in_interrupt_guarded (s : LoopState) (h : LoopReach s) :
    (s.is_playing = true → (startRecordingUpd s).interrupt = true) ∧
    (s.recording = true → s.recStartedDuringSpeaking = true →
     s.dequeuedSinceRecStart = false → s.interrupt = true) := by
  refine ⟨?_, loopReach_invariant h⟩
  intro hp
  simp [startRecordingUpd, hp]

/-- C2 amended-claim witness: recording begins in a reachable `Speaking`
state (one item enqueued and dequeued for playback) and the interrupt flag
is set at that step. -/
theorem barge_in_interrupt_guarded_witness :
    (startRecordingUpd
      (dequeuePlayUpd (enqueueItemUpd LoopState.init))).interrupt = true := by
  have hr : LoopReach (dequeuePlayUpd (enqueueItemUpd LoopState.init)) :=
    Relation.ReflTransGen.tail
      (Relation.ReflTransGen.single LoopStep.enqueueItem)
      (LoopStep.dequeuePlay (by decide) (by decide))
  exact (barge_in_interrupt_guarded _ hr).1 rfl

end VoiceLoop
